import Mathlib

/-!
Shallow embedding of the `winsvc` package (Go, Windows service wrapper).

The embedding models, from `src/winsvc.go` (the single current version of the
code; older variants live under `src/unnamed/`):

* the service status vocabulary of `golang.org/x/sys/windows/svc` that the
  code uses (`svc.Status`, `svc.ChangeRequest`, the state and accept
  constants);
* `manager.Execute` (the service control loop) as a function over a
  serialized list of the events its `select` can observe;
* the workload goroutine launched by `manager.runFuncWithNotify` together
  with `manager.recoverer` (panic recovery, `os.Exit(2)`, `errRun` writes,
  closing of the `finishRun` channel);
* `manager.stopWithWait` (administrative stop-and-poll loop) over discrete
  50 ms ticks;
* `getStopTimeout`, the `TimeoutStop` defaulting in `Init`, the empty-name
  check of `Init`, and the command substitution of `Init`.

Durations are measured in milliseconds throughout (the registry value is in
milliseconds; `time.Duration` values are only compared against zero or used
as wait bounds, so the unit choice is immaterial).
-/

/-- Service states used by the code, from `golang.org/x/sys/windows/svc`
(`Stopped`, `StartPending`, `StopPending`, `Running`). -/
inductive SvcState
  | stopped
  | startPending
  | stopPending
  | running
deriving DecidableEq, Repr

/-- `svc.Accepts` bit for Stop. -/
def acceptStop : Nat := 1

/-- `svc.Accepts` bit for Shutdown. -/
def acceptShutdown : Nat := 2

/-- `const cmdAccepted = svc.AcceptStop | svc.AcceptShutdown` in
`manager.Execute`. -/
def cmdAccepted : Nat := acceptStop ||| acceptShutdown

/-- `svc.Status`: the fields the code reads or writes (`State`, `Accepts`);
the remaining fields (`CheckPoint`, `WaitHint`, ...) are never touched by
`winsvc.go` and are omitted. -/
structure Status where
  state : SvcState
  accepts : Nat
deriving DecidableEq, Repr

/-- `svc.Status{State: svc.StartPending}` sent at the top of `Execute`. -/
def startPendingStatus : Status := { state := SvcState.startPending, accepts := 0 }

/-- `svc.Status{State: svc.Running, Accepts: cmdAccepted}` sent by `Execute`. -/
def runningStatus : Status := { state := SvcState.running, accepts := cmdAccepted }

/-- `svc.Status{State: svc.StopPending}` sent by `Execute` on Stop/Shutdown. -/
def stopPendingStatus : Status := { state := SvcState.stopPending, accepts := 0 }

/-- `svc.Cmd` values that can arrive on the change-request channel.
`Execute` switches on `Interrogate`, `Stop`, `Shutdown`; every other
command (e.g. Pause, Continue) falls through the `switch` with no case and
is ignored. -/
inductive Cmd
  | interrogate
  | stop
  | shutdown
  | pause
  | cont
deriving DecidableEq, Repr

/-- `svc.ChangeRequest`: the fields `Execute` reads (`Cmd`,
`CurrentStatus`); `EventType`/`EventData`/`Context` are unused by the code
and omitted. -/
structure ChangeRequest where
  cmd : Cmd
  currentStatus : Status
deriving DecidableEq, Repr

/-- Mirror of the `winsvc.Config` struct (field for field).  Durations are
in milliseconds. -/
structure ConfigM where
  name : String
  displayName : String
  description : String
  username : String
  password : String
  arguments : List String
  restartOnFailure : Int
  timeoutStop : Int
  executable : String
  dependencies : List String
deriving DecidableEq, Repr

/-- One event observable by the `select` inside `Execute`'s loop: either the
`finishRun` channel becomes ready (the workload goroutine ended), or a
change request `c` arrives on `r`.  A run of `Execute` is modelled against
the serialized order in which its `select` observes these events. -/
inductive ExecEvent
  | finish
  | req (c : ChangeRequest)
deriving DecidableEq, Repr

/-- Outcome of the inner `select \x7b case <-finishRun: ... case
<-time.After(m.TimeoutStop): ... \x7d` that `Execute` enters after
cancelling the context on Stop/Shutdown: either `finishRun` became ready
(`finished t`, with `t` the elapsed wait in ms — the arm can only win the
race if `t` is at most the timeout), or the timer fired (`timedOut`). -/
inductive WaitOutcome
  | finished (afterMs : Nat)
  | timedOut
deriving DecidableEq, Repr

/-- Observable effects of one run of `Execute`'s loop:
`emitted` is everything sent on the `changes` channel in order;
`transitions` is the subsequence of `emitted` built from the status
literals in `Execute` itself (excluding the Interrogate echo, which
forwards `c.CurrentStatus`); `cancels` counts calls to `m.cancelSvc()`;
`waitMs` is the duration of the bounded post-cancel wait when it was
entered; `result` is `some (svcSpecificEC, errno)` when the function
returned, `none` when the loop is still blocked on its `select`. -/
structure LoopOut where
  emitted : List Status
  transitions : List Status
  cancels : Nat
  waitMs : Option Nat
  result : Option (Bool × Nat)
deriving DecidableEq, Repr

/-- The `svc.Stop, svc.Shutdown` case of `Execute`: send
`Status{State: StopPending}`, call `m.cancelSvc()`, race `finishRun`
against `time.After(m.TimeoutStop)`, then `break loop` and fall through to
`return false, 0` — both arms of the race continue identically. -/
def stopBranch (cfg : ConfigM) (w : WaitOutcome) : LoopOut :=
  match w with
  | WaitOutcome.finished t =>
      { emitted := [stopPendingStatus], transitions := [stopPendingStatus],
        cancels := 1, waitMs := some (min t cfg.timeoutStop.toNat),
        result := some (false, 0) }
  | WaitOutcome.timedOut =>
      { emitted := [stopPendingStatus], transitions := [stopPendingStatus],
        cancels := 1, waitMs := some cfg.timeoutStop.toNat,
        result := some (false, 0) }

/-- The `for \x7b select ... \x7d` loop of `Execute`, processing the events in
their observed order.  `case <-finishRun` returns `(true, 1)` at once; an
Interrogate echoes `c.CurrentStatus`; Stop/Shutdown runs `stopBranch`;
commands with no `switch` case are ignored; an exhausted event list leaves
the loop blocked (`result = none`). -/
def execLoop (cfg : ConfigM) (w : WaitOutcome) : List ExecEvent → LoopOut
  | [] => { emitted := [], transitions := [], cancels := 0, waitMs := none, result := none }
  | ExecEvent.finish :: _ =>
      { emitted := [], transitions := [], cancels := 0, waitMs := none, result := some (true, 1) }
  | ExecEvent.req c :: rest =>
      match c.cmd with
      | Cmd.interrogate =>
          let o := execLoop cfg w rest
          { o with emitted := c.currentStatus :: o.emitted }
      | Cmd.stop => stopBranch cfg w
      | Cmd.shutdown => stopBranch cfg w
      | Cmd.pause => execLoop cfg w rest
      | Cmd.cont => execLoop cfg w rest

/-- `manager.Execute` from `src/winsvc.go`: sends
`Status{State: StartPending}`, starts the workload, sends
`Status{State: Running, Accepts: cmdAccepted}`, then enters the loop. -/
def execute (cfg : ConfigM) (w : WaitOutcome) (events : List ExecEvent) : LoopOut :=
  let o := execLoop cfg w events
  { o with emitted := startPendingStatus :: runningStatus :: o.emitted,
           transitions := startPendingStatus :: runningStatus :: o.transitions }

example :
    (execute { name := "s", displayName := "", description := "", username := "",
               password := "", arguments := [], restartOnFailure := 0, timeoutStop := 2000,
               executable := "", dependencies := [] }
      WaitOutcome.timedOut
      [ExecEvent.req { cmd := Cmd.stop, currentStatus := runningStatus }]).result
      = some (false, 0) := by decide

example :
    (execute { name := "s", displayName := "", description := "", username := "",
               password := "", arguments := [], restartOnFailure := 0, timeoutStop := 2000,
               executable := "", dependencies := [] }
      WaitOutcome.timedOut [ExecEvent.finish]).result = some (true, 1) := by decide

/-! ## The workload goroutine and `manager.recoverer` -/

/-- How `m.svcHandler(m.ctxSvc)` ends inside the goroutine launched by
`runFuncWithNotify`: a normal return carrying an error value (`none` for a
nil error), or a panic with a payload rendered as a string. -/
inductive RunResult
  | ret (err : Option String)
  | panicked (msg : String)
deriving DecidableEq, Repr

/-- Observable effects of the goroutine body
`defer cancelRun(); defer m.recoverer(); m.setError(m.svcHandler(m.ctxSvc))`:
`errRunWrite = some e` iff `m.setError e` ran (a write to the `errRun`
holder); `logged` is the `log.Printf("panic: %s\n\n%s", rvr, debug.Stack())`
diagnostic (panic message and stack trace) when it was printed; `exitCode`
is the argument of `os.Exit` when it was called; `finishClosed` records
whether `cancelRun()` ran (closing the `finishRun` channel); `propagated`
records whether a panic escaped the goroutine. -/
structure GoroutineEffect where
  errRunWrite : Option (Option String)
  logged : Option (String × String)
  exitCode : Option Nat
  finishClosed : Bool
  propagated : Bool
deriving DecidableEq, Repr

/-- `manager.recoverer` from `src/winsvc.go`: if `recover()` returned a
non-nil value `rvr`, print the diagnostic, then
`select \x7b case <-m.ctxSvc.Done(): default: os.Exit(2) \x7d` — i.e. exit
with code 2 unless the service context is already cancelled.  `ctxDone` is
whether `m.ctxSvc.Done()` is ready at recovery time.  Returns the printed
diagnostic and the exit code, if any. -/
def recoverer (ctxDone : Bool) (rvr : Option (String × String)) :
    Option (String × String) × Option Nat :=
  match rvr with
  | none => (none, none)
  | some d => (some d, if ctxDone then none else some 2)

/-- The goroutine body of `runFuncWithNotify`.  On a normal return of the
workload, `setError` stores the returned error, `recoverer` sees a nil
`recover()`, and the deferred `cancelRun` closes `finishRun`.  On a panic,
`setError` is skipped (the call it wraps never returned); `recoverer`
handles the panic; if it calls `os.Exit(2)` the process dies before the
deferred `cancelRun` can run, so `finishRun` is closed only when no exit
was taken.  `stack` is the `debug.Stack()` snapshot at recovery time. -/
def runFuncGoroutine (ctxDone : Bool) (stack : String) (r : RunResult) : GoroutineEffect :=
  match r with
  | RunResult.ret e =>
      let p := recoverer ctxDone none
      { errRunWrite := some e, logged := p.1, exitCode := p.2,
        finishClosed := true, propagated := false }
  | RunResult.panicked msg =>
      let p := recoverer ctxDone (some (msg, stack))
      { errRunWrite := none, logged := p.1, exitCode := p.2,
        finishClosed := p.2.isNone, propagated := false }

/-! ## The alternate coordinator variant (`src/unnamed/part_000`)

`src/unnamed/part_000` holds an older variant of the package in which the
manager has a `disablePanic` flag set by the `DisablePanic()` option, and
whose `Execute` reacts to `<-finishRun` with
`if !m.disablePanic \x7b panic("exit from run function") \x7d return false, 1`.
Only the control loop is modelled; it is needed to settle the claim about
early-exit reporting policy. -/

/-- Result of the variant `Execute`: it can return a pair like the current
one, or panic. -/
inductive ExecV0Result
  | returned (svcSpecificEC : Bool) (errno : Nat)
  | panickedV0 (msg : String)
deriving DecidableEq, Repr

/-- Loop output of the variant `Execute` (`src/unnamed/part_000`). -/
structure LoopOutV0 where
  emitted : List Status
  cancels : Nat
  result : Option ExecV0Result
deriving DecidableEq, Repr

/-- The loop of the variant `Execute`: identical to the current one except
for the `<-finishRun` case, which panics unless `disablePanic` is set and
otherwise returns `(false, 1)`; the Stop/Shutdown case returns `(false, 0)`
after the same bounded wait. -/
def execLoopV0 (dp : Bool) : List ExecEvent → LoopOutV0
  | [] => { emitted := [], cancels := 0, result := none }
  | ExecEvent.finish :: _ =>
      { emitted := [], cancels := 0,
        result := some (if dp then ExecV0Result.returned false 1
                        else ExecV0Result.panickedV0 "exit from run function") }
  | ExecEvent.req c :: rest =>
      match c.cmd with
      | Cmd.interrogate =>
          let o := execLoopV0 dp rest
          { o with emitted := c.currentStatus :: o.emitted }
      | Cmd.stop =>
          { emitted := [stopPendingStatus], cancels := 1,
            result := some (ExecV0Result.returned false 0) }
      | Cmd.shutdown =>
          { emitted := [stopPendingStatus], cancels := 1,
            result := some (ExecV0Result.returned false 0) }
      | Cmd.pause => execLoopV0 dp rest
      | Cmd.cont => execLoopV0 dp rest

/-- The variant `Execute` (`src/unnamed/part_000`), with its `disablePanic`
flag. -/
def executeV0 (dp : Bool) (events : List ExecEvent) : LoopOutV0 :=
  let o := execLoopV0 dp events
  { o with emitted := startPendingStatus :: runningStatus :: o.emitted }

/-! ## `manager.stopWithWait`: the administrative stop-and-poll loop -/

/-- Result of one `s.Query()` call. -/
inductive QueryRes
  | ok (st : SvcState)
  | err (e : String)
deriving DecidableEq, Repr

/-- `timeDuration := time.Millisecond * 50` in `stopWithWait`: the fixed
polling interval, in ms. -/
def tickIntervalMs : Nat := 50

/-- The `for status.State != svc.Stopped \x7b select ... \x7d` loop of
`stopWithWait`, over discrete ticks.  `query i` is the result of the i-th
`s.Query()` call (the poll performed at time `tickIntervalMs * (i+1)`).
`fuel` is the number of ticks that can fire before the `timeout` channel
does; when it is exhausted the `case <-timeout: break loop` arm runs and
the function falls through to `return nil`.  Returns the function result
and the number of polls performed. -/
def stopPollLoop (query : Nat → QueryRes) : Nat → Nat → SvcState → Except String Unit × Nat
  | 0, i, _ => (Except.ok (), i)
  | Nat.succ k, i, st =>
      if st = SvcState.stopped then (Except.ok (), i)
      else
        match query i with
        | QueryRes.err e => (Except.error e, i + 1)
        | QueryRes.ok st2 => stopPollLoop query k (i + 1) st2

/-- `manager.stopWithWait` from `src/winsvc.go`: sends `svc.Stop`
(`control` is the result of `s.Control(svc.Stop)`, carrying the reported
state on success), then polls every 50 ms with a timeout channel firing
after `timeStopDefault + timeDuration*2`.  The number of ticks that can
fire before that timeout is `(timeStopDefaultMs + 100) / 50`.  Note the
deadline is built from the package-level `timeStopDefault`, not from the
manager's `TimeoutStop`. -/
def stopWithWait (timeStopDefaultMs : Nat) (control : Except String SvcState)
    (query : Nat → QueryRes) : Except String Unit × Nat :=
  match control with
  | Except.error e => (Except.error e, 0)
  | Except.ok st =>
      let timeoutMs := timeStopDefaultMs + tickIntervalMs * 2
      stopPollLoop query (timeoutMs / tickIntervalMs) 0 st

/-- `stopWithWait` as a method of the manager: the body ignores every
`Config` field of `m` (in particular `m.TimeoutStop`) and uses the global
`timeStopDefault`. -/
def managerStopWithWait (_cfg : ConfigM) (timeStopDefaultMs : Nat)
    (control : Except String SvcState) (query : Nat → QueryRes) : Except String Unit × Nat :=
  stopWithWait timeStopDefaultMs control query

/-! ## `getStopTimeout`, `Init`, and the command dispatch -/

/-- Decimal-digit run parser backing the `strconv.Atoi` model: `some n`
iff `cs` is non-empty and all digits. -/
def parseDigits (cs : List Char) : Option Nat :=
  if cs.isEmpty then none
  else if cs.all Char.isDigit then
    some (cs.foldl (fun a c => a * 10 + (c.toNat - 48)) 0)
  else none

/-- Go's `strconv.Atoi` (= `ParseInt(s, 10, 0)` with 64-bit `int`):
optional leading sign, then a non-empty digit run, nothing else, value
within the `int64` range; every failure yields an error (`none`). -/
def goAtoi (s : String) : Option Int :=
  let p : Bool × List Char :=
    match s.toList with
    | '-' :: r => (true, r)
    | '+' :: r => (false, r)
    | r => (false, r)
  match parseDigits p.2 with
  | none => none
  | some n =>
      let v : Int := if p.1 then -(n : Int) else (n : Int)
      if -(2 ^ 63) ≤ v ∧ v ≤ 2 ^ 63 - 1 then some v else none

/-- `getStopTimeout` from `src/winsvc.go`, in ms.  `reg` is the registry
value `WaitToKillServiceTimeout` under
`SYSTEM\CurrentControlSet\Control` as a string, `none` when opening the
key or reading the value failed (both failure paths return the default).
An unparsable string also returns the default of 20000 ms; otherwise the
parsed value (the code multiplies it by `time.Millisecond`). -/
def getStopTimeout (reg : Option String) : Int :=
  match reg with
  | none => 20000
  | some sv =>
      match goAtoi sv with
      | none => 20000
      | some v => v

/-- The `if c.TimeoutStop == 0 \x7b c.TimeoutStop = timeStopDefault \x7d`
step of `Init`. -/
def resolveTimeoutStop (cfgTimeout tsd : Int) : Int :=
  if cfgTimeout = 0 then tsd else cfgTimeout

/-- The command enumeration of the `flag.go` companion (`cmdUnknown`,
`cmdHelp`, `cmdStart`, `cmdStop`, `cmdRestart`, `cmdInstall`,
`cmdUninstall`, `cmdRun`); `Init` assigns the run command (`CmdRun`). -/
inductive Command
  | cmdUnknown
  | cmdHelp
  | cmdStart
  | cmdStop
  | cmdRestart
  | cmdInstall
  | cmdUninstall
  | cmdRun
deriving DecidableEq, Repr

/-- How `Init` ends: `log.Fatalf` (which terminates the process, so `Init`
never returns), or dispatching an effective command with the resolved
config to `runCmd`. -/
inductive InitOutcome
  | fatal (msg : String)
  | dispatch (effCmd : Command) (cfg : ConfigM)
deriving DecidableEq, Repr

/-- `Init` from `src/winsvc.go` up to the `runCmd(cmd)` call: substitute
`CmdRun` when not interactive, `log.Fatalf("winsvc: %s", errEmptyName)` on
an empty `Name`, default `TimeoutStop` from `timeStopDefault` (`tsd`),
then dispatch. -/
def initModel (inter : Bool) (cfg : ConfigM) (cmd : Command) (tsd : Int) : InitOutcome :=
  let cmd' := if !inter then Command.cmdRun else cmd
  if cfg.name.length = 0 then
    InitOutcome.fatal "winsvc: name field is required"
  else
    InitOutcome.dispatch cmd'
      { cfg with timeoutStop := resolveTimeoutStop cfg.timeoutStop tsd }

/-- What a dispatched command executes: an administrative handler followed
by `os.Exit(0)`, or the managed service run (`run()`). -/
inductive Dispatch
  | adminThenExit (c : Command)
  | runService
deriving DecidableEq, Repr

/-- Modelled from the spec: the `runCmd` dispatcher that `Init` calls as
`runCmd(cmd)`.  The `flag.go` in `src/` holds two earlier variants whose
`runCmd` takes no parameter; the variant matching `Init`'s one-argument
call is absent from `src/`.  Per the spec's administrative surface (§6 of
the specification) and the switch shape of both present variants: the run
command executes the managed run, every other command executes its
administrative handler and exits the process. -/
def runCmdModel (c : Command) : Dispatch :=
  match c with
  | Command.cmdRun => Dispatch.runService
  | c => Dispatch.adminThenExit c

example : runCmdModel Command.cmdInstall = Dispatch.adminThenExit Command.cmdInstall := by decide

example : (runFuncGoroutine false "stk" (RunResult.panicked "boom")).exitCode = some 2 := by decide

example : getStopTimeout (some "1500") = 1500 := by decide

example : (stopWithWait 200 (Except.ok SvcState.running) (fun _ => QueryRes.ok SvcState.running)).2 = 6 := by decide

/-! ## Helper predicates and lemmas -/

/-- Events that `Execute`'s loop survives without breaking or returning:
a change request whose command is Interrogate or one with no `switch` case
(Pause, Continue).  The `finishRun` event and Stop/Shutdown requests are
not benign. -/
def benignEv : ExecEvent → Prop
  | ExecEvent.req c => c.cmd = Cmd.interrogate ∨ c.cmd = Cmd.pause ∨ c.cmd = Cmd.cont
  | ExecEvent.finish => False

instance benignEvDecidable (e : ExecEvent) : Decidable (benignEv e) :=
  match e with
  | ExecEvent.req c =>
      inferInstanceAs (Decidable (c.cmd = Cmd.interrogate ∨ c.cmd = Cmd.pause ∨ c.cmd = Cmd.cont))
  | ExecEvent.finish => inferInstanceAs (Decidable False)

/-- An event whose Interrogate payload (if it is one) carries the Running
status report — which is what the service control manager sends while the
service is in the Running state. -/
def echoOK : ExecEvent → Prop
  | ExecEvent.req c => c.cmd = Cmd.interrogate → c.currentStatus = runningStatus
  | ExecEvent.finish => True

instance echoOKDecidable (e : ExecEvent) : Decidable (echoOK e) :=
  match e with
  | ExecEvent.req c =>
      inferInstanceAs (Decidable (c.cmd = Cmd.interrogate → c.currentStatus = runningStatus))
  | ExecEvent.finish => inferInstanceAs (Decidable True)

/-- A concrete config with every optional field left at its zero value. -/
def cfgDefault : ConfigM :=
  { name := "svc", displayName := "", description := "", username := "", password := "",
    arguments := [], restartOnFailure := 0, timeoutStop := 0, executable := "",
    dependencies := [] }

/-- A concrete config with every optional field set (in particular
`timeoutStop := 3000` ms and `restartOnFailure := 5000` ms). -/
def cfgAllSet : ConfigM :=
  { name := "svc", displayName := "display", description := "desc", username := "user",
    password := "pw", arguments := ["-a"], restartOnFailure := 5000, timeoutStop := 3000,
    executable := "x.exe", dependencies := ["dep"] }

/-- Processing a prefix of benign events only prepends Interrogate echoes
to `emitted` and leaves every other observable of the loop unchanged. -/
lemma execLoop_append_benign (cfg : ConfigM) (w : WaitOutcome) (l rest : List ExecEvent)
    (h : ∀ e ∈ l, benignEv e) :
    ∃ es : List Status,
      (execLoop cfg w (l ++ rest)).emitted = es ++ (execLoop cfg w rest).emitted
      ∧ (execLoop cfg w (l ++ rest)).transitions = (execLoop cfg w rest).transitions
      ∧ (execLoop cfg w (l ++ rest)).cancels = (execLoop cfg w rest).cancels
      ∧ (execLoop cfg w (l ++ rest)).waitMs = (execLoop cfg w rest).waitMs
      ∧ (execLoop cfg w (l ++ rest)).result = (execLoop cfg w rest).result := by
  induction l with
  | nil => exact ⟨[], rfl, rfl, rfl, rfl, rfl⟩
  | cons e tl ih =>
    have he : benignEv e := h e (by simp)
    obtain ⟨es, h1, h2, h3, h4, h5⟩ := ih (fun x hx => h x (by simp [hx]))
    cases e with
    | finish => exact absurd he (by simp [benignEv])
    | req c =>
      obtain ⟨cmd, cs⟩ := c
      rcases he with hc | hc | hc <;>
        simp only [ChangeRequest.cmd] at hc <;> subst hc
      · exact ⟨cs :: es, by simp [execLoop, h1], by simp [execLoop, h2],
          by simp [execLoop, h3], by simp [execLoop, h4], by simp [execLoop, h5]⟩
      · exact ⟨es, by simp [execLoop, h1], by simp [execLoop, h2],
          by simp [execLoop, h3], by simp [execLoop, h4], by simp [execLoop, h5]⟩
      · exact ⟨es, by simp [execLoop, h1], by simp [execLoop, h2],
          by simp [execLoop, h3], by simp [execLoop, h4], by simp [execLoop, h5]⟩

/-! ## Claim theorems -/

/-- C1, counterexample: a workload that panics while no stop was requested
(the service context is not done).  The `errRun` holder is never written —
the `m.setError(...)` call wraps the workload invocation and is skipped
when the workload panics, and `recoverer` only logs — and the `finishRun`
channel is not closed either, because `os.Exit(2)` terminates the process
before the deferred `cancelRun` can run.  This contradicts the claim that
the recoverer records the diagnostic into the `errRun` holder and still
raises the completion signal. -/
theorem runFunc_panic_cex :
    (runFuncGoroutine false "stack" (RunResult.panicked "boom")).errRunWrite = none
    ∧ (runFuncGoroutine false "stack" (RunResult.panicked "boom")).finishClosed = false :=
  ⟨rfl, rfl⟩

/-- C1, amended: for every workload panic, the deferred `recoverer`
intercepts it (it never propagates out of the goroutine) and logs the
diagnostic (panic message and stack trace); the `errRun` holder is left
unwritten; when the service context is already done the goroutine returns
normally and the deferred `cancelRun` closes `finishRun`, and when it is
not done the process exits with code 2 before `finishRun` is closed. -/
theorem runFunc_panic_contained (ctxDone : Bool) (msg stack : String) :
    (runFuncGoroutine ctxDone stack (RunResult.panicked msg)).propagated = false
    ∧ (runFuncGoroutine ctxDone stack (RunResult.panicked msg)).logged = some (msg, stack)
    ∧ (runFuncGoroutine ctxDone stack (RunResult.panicked msg)).errRunWrite = none
    ∧ (runFuncGoroutine ctxDone stack (RunResult.panicked msg)).exitCode
        = (if ctxDone then none else some 2)
    ∧ (runFuncGoroutine ctxDone stack (RunResult.panicked msg)).finishClosed = ctxDone := by
  cases ctxDone <;> exact ⟨rfl, rfl, rfl, rfl, rfl⟩

/-- C4: a panic recovered while the service context is not yet done makes
the process exit with code 2; the same panic recovered after the context
is done is benign — the recoverer returns normally (no exit), the deferred
`cancelRun` runs, and no failure exit path is taken. -/
theorem recoverer_exit_policy (msg stack : String) :
    (runFuncGoroutine false stack (RunResult.panicked msg)).exitCode = some 2
    ∧ (runFuncGoroutine true stack (RunResult.panicked msg)).exitCode = none
    ∧ (runFuncGoroutine true stack (RunResult.panicked msg)).finishClosed = true :=
  ⟨rfl, rfl, rfl⟩

/-- C8: the grace period is sourced externally.  A non-zero
`Config.TimeoutStop` is kept as-is by `Init`; a zero one is replaced by
`timeStopDefault` = `getStopTimeout`, which yields the parsed registry
value `WaitToKillServiceTimeout` in milliseconds when present and
parsable, and 20000 ms otherwise. -/
theorem timeoutStop_sources (c : Int) (reg : Option String) :
    (c ≠ 0 → resolveTimeoutStop c (getStopTimeout reg) = c)
    ∧ resolveTimeoutStop 0 (getStopTimeout reg) = getStopTimeout reg
    ∧ getStopTimeout none = 20000
    ∧ (∀ s, goAtoi s = none → getStopTimeout (some s) = 20000)
    ∧ (∀ s v, goAtoi s = some v → getStopTimeout (some s) = v) := by
  refine ⟨fun hc => by simp [resolveTimeoutStop, hc], by simp [resolveTimeoutStop], rfl,
    fun s hs => by simp [getStopTimeout, hs], fun s v hs => by simp [getStopTimeout, hs]⟩

/-- Witness for C8 at concrete inputs: an explicit timeout of 5 ms
survives; an unparsable registry string falls back to 20000 ms; a parsable
one is used. -/
theorem timeoutStop_sources_witness :
    ((5 : Int) ≠ 0 ∧ resolveTimeoutStop 5 (getStopTimeout (some "123")) = 5)
    ∧ (goAtoi "12x" = none ∧ getStopTimeout (some "12x") = 20000)
    ∧ (goAtoi "1500" = some 1500 ∧ getStopTimeout (some "1500") = 1500) :=
  ⟨⟨by decide, (timeoutStop_sources 5 (some "123")).1 (by decide)⟩,
   ⟨by decide, (timeoutStop_sources 0 (some "12x")).2.2.2.1 "12x" (by decide)⟩,
   ⟨by decide, (timeoutStop_sources 0 (some "1500")).2.2.2.2 "1500" 1500 (by decide)⟩⟩

/-- C9: for every config whose `Name` is empty, `Init` reaches
`log.Fatalf` (process termination) — it never dispatches, so the
empty-name error is never observable as a return value of `Init`. -/
theorem init_empty_name_fatal (inter : Bool) (cfg : ConfigM) (cmd : Command) (tsd : Int)
    (h : cfg.name = "") :
    initModel inter cfg cmd tsd = InitOutcome.fatal "winsvc: name field is required"
    ∧ ∀ e c2, initModel inter cfg cmd tsd ≠ InitOutcome.dispatch e c2 := by
  constructor
  · simp [initModel, h]
  · intro e c2
    simp [initModel, h]

/-- Witness for C9: a concrete config with an empty name. -/
theorem init_empty_name_witness :
    ({ name := "", displayName := "", description := "", username := "", password := "",
       arguments := [], restartOnFailure := 0, timeoutStop := 0, executable := "",
       dependencies := [] } : ConfigM).name = ""
    ∧ (initModel true
        { name := "", displayName := "", description := "", username := "", password := "",
          arguments := [], restartOnFailure := 0, timeoutStop := 0, executable := "",
          dependencies := [] } Command.cmdStart 7
        = InitOutcome.fatal "winsvc: name field is required"
      ∧ ∀ e c2, initModel true
          { name := "", displayName := "", description := "", username := "", password := "",
            arguments := [], restartOnFailure := 0, timeoutStop := 0, executable := "",
            dependencies := [] } Command.cmdStart 7 ≠ InitOutcome.dispatch e c2) :=
  ⟨rfl, init_empty_name_fatal true _ Command.cmdStart 7 rfl⟩

/-- C10: when running under the OS service manager (`Interactive()` is
false), `Init` substitutes the run command for whatever was passed, so the
dispatch always executes the managed run and never an administrative
handler. -/
theorem init_managed_forces_run (cfg : ConfigM) (cmd : Command) (tsd : Int)
    (h : cfg.name.length ≠ 0) :
    (∃ c2, initModel false cfg cmd tsd = InitOutcome.dispatch Command.cmdRun c2)
    ∧ runCmdModel Command.cmdRun = Dispatch.runService
    ∧ ∀ a, runCmdModel Command.cmdRun ≠ Dispatch.adminThenExit a := by
  refine ⟨⟨{ cfg with timeoutStop := resolveTimeoutStop cfg.timeoutStop tsd }, ?_⟩, rfl, ?_⟩
  · simp [initModel, h]
  · intro a
    simp [runCmdModel]

/-- Witness for C10: an administrative command (`install`) passed to
`Init` in managed mode is discarded in favor of the run command. -/
theorem init_managed_forces_run_witness :
    ({ name := "svc", displayName := "", description := "", username := "", password := "",
       arguments := [], restartOnFailure := 0, timeoutStop := 0, executable := "",
       dependencies := [] } : ConfigM).name.length ≠ 0
    ∧ ((∃ c2, initModel false
          { name := "svc", displayName := "", description := "", username := "", password := "",
            arguments := [], restartOnFailure := 0, timeoutStop := 0, executable := "",
            dependencies := [] } Command.cmdInstall 7 = InitOutcome.dispatch Command.cmdRun c2)
      ∧ runCmdModel Command.cmdRun = Dispatch.runService
      ∧ ∀ a, runCmdModel Command.cmdRun ≠ Dispatch.adminThenExit a) :=
  ⟨by decide, init_managed_forces_run _ Command.cmdInstall 7 (by decide)⟩

/-- Under the hypothesis that every Interrogate request carries the
Running status report, the loop's emissions are some Interrogate echoes of
`runningStatus` followed by at most one `stopPendingStatus`. -/
lemma execLoop_echo_shape (cfg : ConfigM) (w : WaitOutcome) (l : List ExecEvent)
    (h : ∀ e ∈ l, echoOK e) :
    ∃ k, (execLoop cfg w l).emitted = List.replicate k runningStatus
       ∨ (execLoop cfg w l).emitted = List.replicate k runningStatus ++ [stopPendingStatus] := by
  induction l with
  | nil => exact ⟨0, Or.inl rfl⟩
  | cons e tl ih =>
    obtain ⟨k, hk⟩ := ih (fun x hx => h x (by simp [hx]))
    cases e with
    | finish => exact ⟨0, Or.inl (by simp [execLoop])⟩
    | req c =>
      obtain ⟨cmd, cs⟩ := c
      cases cmd with
      | interrogate =>
        have he : echoOK (ExecEvent.req { cmd := Cmd.interrogate, currentStatus := cs }) :=
          h (ExecEvent.req { cmd := Cmd.interrogate, currentStatus := cs })
            (List.mem_cons_self _ _)
        have hcs : cs = runningStatus := he rfl
        subst hcs
        rcases hk with hk | hk
        · exact ⟨k + 1, Or.inl (by simp [execLoop, hk, List.replicate_succ])⟩
        · exact ⟨k + 1, Or.inr (by simp [execLoop, hk, List.replicate_succ])⟩
      | stop => exact ⟨0, Or.inr (by cases w <;> simp [execLoop, stopBranch])⟩
      | shutdown => exact ⟨0, Or.inr (by cases w <;> simp [execLoop, stopBranch])⟩
      | pause => exact ⟨k, by simpa [execLoop] using hk⟩
      | cont => exact ⟨k, by simpa [execLoop] using hk⟩

/-- A run of the loop on N Interrogate requests that all carry the status
`s`: N echoes of `s`, no transition statuses, no cancellation, no wait, no
return. -/
lemma execLoop_replicate_interrogate (cfg : ConfigM) (w : WaitOutcome) (N : Nat) (s : Status) :
    execLoop cfg w (List.replicate N (ExecEvent.req { cmd := Cmd.interrogate, currentStatus := s }))
      = { emitted := List.replicate N s, transitions := [], cancels := 0,
          waitMs := none, result := none } := by
  induction N with
  | zero => rfl
  | succ n ih => simp [List.replicate_succ, execLoop, ih]

/-- The polling loop of `stopWithWait` performs at most `fuel` further
polls. -/
lemma stopPollLoop_polls_le (query : Nat → QueryRes) :
    ∀ (fuel i : Nat) (st : SvcState), (stopPollLoop query fuel i st).2 ≤ i + fuel := by
  intro fuel
  induction fuel with
  | zero => intro i st; simp [stopPollLoop]
  | succ k ih =>
    intro i st
    by_cases hst : st = SvcState.stopped
    · simp [stopPollLoop, hst]
    · cases hq : query i with
      | err e => simp [stopPollLoop, hst, hq]
      | ok st2 =>
        have h2 := ih (i + 1) st2
        simp [stopPollLoop, hst, hq]
        omega

/-- When every poll reports a non-Stopped state without error, the loop
runs its fuel out (the `timeout` arm fires) and the function returns nil
(`Except.ok ()`). -/
lemma stopPollLoop_timeout_ok (query : Nat → QueryRes)
    (hq : ∀ j, ∃ s, query j = QueryRes.ok s ∧ s ≠ SvcState.stopped) :
    ∀ (fuel i : Nat) (st : SvcState), st ≠ SvcState.stopped →
      stopPollLoop query fuel i st = (Except.ok (), i + fuel) := by
  intro fuel
  induction fuel with
  | zero => intro i st _; simp [stopPollLoop]
  | succ k ih =>
    intro i st hst
    obtain ⟨s2, hq2, hs2⟩ := hq i
    have h2 := ih (i + 1) s2 hs2
    simp [stopPollLoop, hst, hq2, h2]
    omega

/-- C2: for every Stop or Shutdown request arriving after only benign
traffic (Interrogate or ignored commands) while Running, and for every
workload behavior (`w` covers both a workload that finishes during the
wait and one that never does), `Execute` emits `StopPending`, cancels the
context exactly once, enters the bounded wait whose duration never exceeds
`TimeoutStop`, and returns `(false, 0)` in both arms of the race.  The
model contains no operation terminating the workload, mirroring the code,
which only stops waiting. -/
theorem execute_stop_graceful (cfg : ConfigM) (w : WaitOutcome) (pre : List ExecEvent)
    (hpre : ∀ e ∈ pre, benignEv e) (c : ChangeRequest)
    (hc : c.cmd = Cmd.stop ∨ c.cmd = Cmd.shutdown) (rest : List ExecEvent) :
    (execute cfg w (pre ++ ExecEvent.req c :: rest)).result = some (false, 0)
    ∧ (execute cfg w (pre ++ ExecEvent.req c :: rest)).cancels = 1
    ∧ (execute cfg w (pre ++ ExecEvent.req c :: rest)).transitions
        = [startPendingStatus, runningStatus, stopPendingStatus]
    ∧ ∃ d, (execute cfg w (pre ++ ExecEvent.req c :: rest)).waitMs = some d
        ∧ d ≤ cfg.timeoutStop.toNat := by
  obtain ⟨es, h1, h2, h3, h4, h5⟩ :=
    execLoop_append_benign cfg w pre (ExecEvent.req c :: rest) hpre
  obtain ⟨cmd, cs⟩ := c
  have hstop : execLoop cfg w (ExecEvent.req { cmd := cmd, currentStatus := cs } :: rest)
      = stopBranch cfg w := by
    rcases hc with hc | hc <;> simp only [ChangeRequest.cmd] at hc <;> subst hc <;> rfl
  cases w with
  | finished t =>
    refine ⟨?_, ?_, ?_, ?_⟩
    · simp [execute, h5, hstop, stopBranch]
    · simp [execute, h3, hstop, stopBranch]
    · simp [execute, h2, hstop, stopBranch]
    · exact ⟨min t cfg.timeoutStop.toNat,
        by simp [execute, h4, hstop, stopBranch], Nat.min_le_right _ _⟩
  | timedOut =>
    refine ⟨?_, ?_, ?_, ?_⟩
    · simp [execute, h5, hstop, stopBranch]
    · simp [execute, h3, hstop, stopBranch]
    · simp [execute, h2, hstop, stopBranch]
    · exact ⟨cfg.timeoutStop.toNat,
        by simp [execute, h4, hstop, stopBranch], Nat.le_refl _⟩

/-- Witness for C2: one Interrogate (benign) then a Stop request, with a
workload that never finishes (`timedOut`). -/
theorem execute_stop_graceful_witness :
    (∀ e ∈ [ExecEvent.req { cmd := Cmd.interrogate, currentStatus := runningStatus }], benignEv e)
    ∧ (({ cmd := Cmd.stop, currentStatus := runningStatus } : ChangeRequest).cmd = Cmd.stop
        ∨ ({ cmd := Cmd.stop, currentStatus := runningStatus } : ChangeRequest).cmd = Cmd.shutdown)
    ∧ ((execute cfgAllSet WaitOutcome.timedOut
          ([ExecEvent.req { cmd := Cmd.interrogate, currentStatus := runningStatus }]
            ++ ExecEvent.req { cmd := Cmd.stop, currentStatus := runningStatus } :: [])).result
          = some (false, 0)
      ∧ (execute cfgAllSet WaitOutcome.timedOut
          ([ExecEvent.req { cmd := Cmd.interrogate, currentStatus := runningStatus }]
            ++ ExecEvent.req { cmd := Cmd.stop, currentStatus := runningStatus } :: [])).cancels = 1
      ∧ (execute cfgAllSet WaitOutcome.timedOut
          ([ExecEvent.req { cmd := Cmd.interrogate, currentStatus := runningStatus }]
            ++ ExecEvent.req { cmd := Cmd.stop, currentStatus := runningStatus } :: [])).transitions
          = [startPendingStatus, runningStatus, stopPendingStatus]
      ∧ ∃ d, (execute cfgAllSet WaitOutcome.timedOut
          ([ExecEvent.req { cmd := Cmd.interrogate, currentStatus := runningStatus }]
            ++ ExecEvent.req { cmd := Cmd.stop, currentStatus := runningStatus } :: [])).waitMs
            = some d
          ∧ d ≤ cfgAllSet.timeoutStop.toNat) :=
  ⟨by decide, by decide,
   execute_stop_graceful cfgAllSet WaitOutcome.timedOut _ (by decide) _ (by decide) []⟩

/-- C5: in every run of `Execute` whose Interrogate requests carry the
current (Running) status report — which is what the host control plane
sends while the service is Running — the full sequence sent on `changes`
is `StartPending`, then `Running` (accepting Stop and Shutdown), then some
Interrogate echoes of that same Running report, then at most one final
`StopPending`: strict transition order, no transition skipped
(`Running` always follows `StartPending`, `StopPending` only ever after
both), and no state revisited. -/
theorem execute_status_order (cfg : ConfigM) (w : WaitOutcome) (events : List ExecEvent)
    (h : ∀ e ∈ events, echoOK e) :
    ∃ k, (execute cfg w events).emitted
          = startPendingStatus :: runningStatus :: List.replicate k runningStatus
       ∨ (execute cfg w events).emitted
          = startPendingStatus :: runningStatus
              :: (List.replicate k runningStatus ++ [stopPendingStatus]) := by
  obtain ⟨k, hk⟩ := execLoop_echo_shape cfg w events h
  rcases hk with hk | hk
  · exact ⟨k, Or.inl (by simp [execute, hk])⟩
  · exact ⟨k, Or.inr (by simp [execute, hk])⟩

/-- Witness for C5: an Interrogate carrying the Running report followed by
a Shutdown request. -/
theorem execute_status_order_witness :
    (∀ e ∈ [ExecEvent.req { cmd := Cmd.interrogate, currentStatus := runningStatus },
            ExecEvent.req { cmd := Cmd.shutdown, currentStatus := runningStatus }], echoOK e)
    ∧ ∃ k, (execute cfgDefault WaitOutcome.timedOut
            [ExecEvent.req { cmd := Cmd.interrogate, currentStatus := runningStatus },
             ExecEvent.req { cmd := Cmd.shutdown, currentStatus := runningStatus }]).emitted
          = startPendingStatus :: runningStatus :: List.replicate k runningStatus
       ∨ (execute cfgDefault WaitOutcome.timedOut
            [ExecEvent.req { cmd := Cmd.interrogate, currentStatus := runningStatus },
             ExecEvent.req { cmd := Cmd.shutdown, currentStatus := runningStatus }]).emitted
          = startPendingStatus :: runningStatus
              :: (List.replicate k runningStatus ++ [stopPendingStatus]) :=
  ⟨by decide, execute_status_order cfgDefault WaitOutcome.timedOut _ (by decide)⟩

/-- C6: N consecutive Interrogate requests all carrying the status `s` are
each answered by echoing `s` verbatim (`N` identical replies), and the
lifecycle state is unchanged afterward: the transition reports are still
exactly `StartPending, Running` (same accepted-command set `cmdAccepted`),
no cancellation happened, no wait was entered, and `Execute` has not
returned — the loop is still serving the Running state. -/
theorem execute_interrogate_idempotent (cfg : ConfigM) (w : WaitOutcome) (N : Nat) (s : Status) :
    execute cfg w (List.replicate N (ExecEvent.req { cmd := Cmd.interrogate, currentStatus := s }))
      = { emitted := startPendingStatus :: runningStatus :: List.replicate N s,
          transitions := [startPendingStatus, runningStatus],
          cancels := 0, waitMs := none, result := none } := by
  simp [execute, execLoop_replicate_interrogate]

/-- C3, counterexample: when `finishRun` fires before any stop request,
the current `Execute` returns `(true, 1)` — an abnormal, service-specific
exit code 1 — for a config with no options set and for one with every
option set alike: no configuration field makes it a graceful stop.  The
only tolerate-early-exit knob in the repository's history, `DisablePanic`
of the `src/unnamed/part_000` variant, merely suppresses the
`panic("exit from run function")` and still returns `(false, 1)` (Win32
exit code 1), which differs from a graceful stop `(false, 0)`. -/
theorem execute_early_exit_cex :
    (execute cfgDefault WaitOutcome.timedOut [ExecEvent.finish]).result = some (true, 1)
    ∧ (execute cfgAllSet WaitOutcome.timedOut [ExecEvent.finish]).result = some (true, 1)
    ∧ (executeV0 true [ExecEvent.finish]).result = some (ExecV0Result.returned false 1)
    ∧ (executeV0 false [ExecEvent.finish]).result
        = some (ExecV0Result.panickedV0 "exit from run function")
    ∧ ExecV0Result.returned false 1 ≠ ExecV0Result.returned false 0 :=
  ⟨rfl, rfl, rfl, rfl, by decide⟩

/-- C3, amended: early workload exit (completion signal before any stop
request) is hard-coded as an abnormal exit: the current `Execute` returns
`(true, 1)` for every config, and the alternate variant's `DisablePanic`
option only chooses between panicking and returning the non-graceful
`(false, 1)`. -/
theorem execute_early_exit_hardcoded (cfg : ConfigM) (w : WaitOutcome) (pre : List ExecEvent)
    (hpre : ∀ e ∈ pre, benignEv e) (rest : List ExecEvent) :
    (execute cfg w (pre ++ ExecEvent.finish :: rest)).result = some (true, 1)
    ∧ ∀ dp : Bool, (executeV0 dp [ExecEvent.finish]).result
        = some (if dp then ExecV0Result.returned false 1
                else ExecV0Result.panickedV0 "exit from run function") := by
  obtain ⟨es, h1, h2, h3, h4, h5⟩ :=
    execLoop_append_benign cfg w pre (ExecEvent.finish :: rest) hpre
  constructor
  · simp [execute, h5, execLoop]
  · intro dp
    cases dp <;> rfl

/-- Witness for the amended C3: empty benign prefix, all-options config. -/
theorem execute_early_exit_hardcoded_witness :
    (∀ e ∈ ([] : List ExecEvent), benignEv e)
    ∧ ((execute cfgAllSet WaitOutcome.timedOut ([] ++ ExecEvent.finish :: [])).result
          = some (true, 1)
      ∧ ∀ dp : Bool, (executeV0 dp [ExecEvent.finish]).result
          = some (if dp then ExecV0Result.returned false 1
                  else ExecV0Result.panickedV0 "exit from run function")) :=
  ⟨by simp, execute_early_exit_hardcoded cfgAllSet WaitOutcome.timedOut [] (by simp) []⟩

set_option maxRecDepth 4000 in
/-- C7, counterexample: `stopWithWait` builds its deadline from the global
`timeStopDefault` (here 20000 ms), not from the manager's configured
`TimeoutStop` (3000 ms in `cfgAllSet`): against a service that never
reports Stopped it performs 402 polls of 50 ms — a total wait of 20100 ms,
which exceeds the configured stop deadline of 3000 ms plus the code's own
100 ms margin. -/
theorem stopWithWait_config_cex :
    managerStopWithWait cfgAllSet 20000 (Except.ok SvcState.running)
        (fun _ : Nat => QueryRes.ok SvcState.running)
      = (Except.ok (), 402)
    ∧ cfgAllSet.timeoutStop = 3000
    ∧ ¬(tickIntervalMs * 402 ≤ cfgAllSet.timeoutStop.toNat + tickIntervalMs * 2) :=
  ⟨rfl, rfl, by decide⟩

/-- C7, amended: `stopWithWait` never busy-waits — it performs polls at
the fixed coarse interval of 50 ms, so its total wait is
`tickIntervalMs * polls` — and that wait is bounded by the process-default
stop timeout `timeStopDefault` plus the fixed 100 ms margin (two tick
intervals), for every control-call result and every sequence of query
results; when that deadline expires before the OS reports Stopped (and no
query errored) it returns nil (`Except.ok ()`), the timeout being an
escape valve rather than an error. -/
theorem stopWithWait_bounded (tsd : Nat) :
    (∀ (control : Except String SvcState) (query : Nat → QueryRes),
        tickIntervalMs * (stopWithWait tsd control query).2 ≤ tsd + tickIntervalMs * 2)
    ∧ (∀ (st0 : SvcState) (query : Nat → QueryRes),
        (∀ j, ∃ s, query j = QueryRes.ok s ∧ s ≠ SvcState.stopped) →
        st0 ≠ SvcState.stopped →
        stopWithWait tsd (Except.ok st0) query
          = (Except.ok (), (tsd + tickIntervalMs * 2) / tickIntervalMs)) := by
  constructor
  · intro control query
    cases control with
    | error e => simp [stopWithWait]
    | ok st =>
      have h := stopPollLoop_polls_le query ((tsd + tickIntervalMs * 2) / tickIntervalMs) 0 st
      calc tickIntervalMs * (stopWithWait tsd (Except.ok st) query).2
          ≤ tickIntervalMs * ((tsd + tickIntervalMs * 2) / tickIntervalMs) :=
            Nat.mul_le_mul (Nat.le_refl _) (by simpa [stopWithWait] using h)
        _ ≤ tsd + tickIntervalMs * 2 := by
            rw [Nat.mul_comm]
            exact Nat.div_mul_le_self _ _
  · intro st0 query hq h0
    have h := stopPollLoop_timeout_ok query hq ((tsd + tickIntervalMs * 2) / tickIntervalMs) 0 st0 h0
    simpa [stopWithWait] using h

/-- Witness for the amended C7 at `tsd = 200` ms with a service that never
stops: the wait is bounded and the timeout path returns nil. -/
theorem stopWithWait_bounded_witness :
    (tickIntervalMs * (stopWithWait 200 (Except.ok SvcState.running)
        (fun _ : Nat => QueryRes.ok SvcState.running)).2 ≤ 200 + tickIntervalMs * 2)
    ∧ ((∀ j : Nat, ∃ s, (fun _ : Nat => QueryRes.ok SvcState.running) j = QueryRes.ok s
          ∧ s ≠ SvcState.stopped)
      ∧ stopWithWait 200 (Except.ok SvcState.running)
          (fun _ : Nat => QueryRes.ok SvcState.running)
          = (Except.ok (), (200 + tickIntervalMs * 2) / tickIntervalMs)) :=
  ⟨(stopWithWait_bounded 200).1 _ _,
   ⟨fun _ => ⟨SvcState.running, rfl, by decide⟩,
    (stopWithWait_bounded 200).2 SvcState.running _
      (fun _ => ⟨SvcState.running, rfl, by decide⟩) (by decide)⟩⟩
